import Mathlib

/-!
# Verification of the kubesync distributed mutex

A shallow embedding of the `kubesync` library (Go): a distributed mutex
backed by Kubernetes Lease records.  The embedding follows `mutex.go`
and `kubesync.go`:

* `LeaseSpec` models `coordinationv1.LeaseSpec` (the five spec fields
  the library reads and writes).  Timestamps are integers (nanoseconds,
  matching Go `time.Time` arithmetic; `metav1.MicroTime` values are
  just `time.Time`s truncated to microseconds, which is irrelevant to
  the properties proved here).  `leaseDurationSeconds` and
  `leaseTransitions` are Go `int32` values; their arithmetic is modelled
  with an explicit reduction into the two's-complement range.
* `extend` and `unlock` model `Mutex.Extend` and `Mutex.Unlock`: a
  single Get followed by at most one Update.  Store failures that the
  external client can produce are injection parameters (`gFail` for the
  Get, `uFail` for the Update); a failed operation leaves the record
  unchanged (a Kubernetes update is atomic).
* `lockStep` models one atomic store interaction of `Mutex.lock`
  (create / get / claim-update / sleep / the context checks), driven by
  a program counter `PC` that mirrors the control flow of the Go
  function.  `Step2` is the interleaving of two contending `lock`
  calls against the shared store, plus clock ticks and context
  cancellation events; `Reach2` is reachability.
-/

namespace Kubesync

/-- The fields of `coordinationv1.LeaseSpec` used by the library
(`mutex.go`).  Times are in nanoseconds; `leaseDurationSeconds` is in
whole seconds (`*int32` in Go); `leaseTransitions` is `*int32`. -/
structure LeaseSpec where
  holderIdentity : Option String
  acquireTime : Option Int
  renewTime : Option Int
  leaseDurationSeconds : Option Int
  leaseTransitions : Option Int
deriving DecidableEq

/-- The record created by `lock`'s bootstrap `Create` call: an empty
`coordinationv1.LeaseSpec{}` (mutex.go line 121). -/
def emptyLease : LeaseSpec :=
  { holderIdentity := none
    acquireTime := none
    renewTime := none
    leaseDurationSeconds := none
    leaseTransitions := none }

/-- The immutable configuration of a `Mutex` (mutex.go lines 48-74):
the owning identity, the retry interval and the lock TTL (both in
nanoseconds, as Go `time.Duration`s). -/
structure MutexCfg where
  uniqueID : String
  retryDurNS : Int
  expirationNS : Int
deriving DecidableEq

/-- `Syncer.NewMutex` (mutex.go lines 83-92): retry interval 250 ms,
expiration 10 s.  No public API changes these defaults. -/
def newMutex (uniqueID : String) : MutexCfg :=
  { uniqueID := uniqueID
    retryDurNS := 250 * 1000000
    expirationNS := 10 * 1000000000 }

/-- Reduction of an integer into the `int32` two's-complement range,
modelling Go's wrapping `int32` arithmetic (`leaseTransitions++`). -/
def wrap32 (n : Int) : Int :=
  Int.emod (n + 2147483648) 4294967296 - 2147483648

/-- `math.Round(d.Seconds())` for a nanosecond duration `d`: the
nearest whole number of seconds.  For the values the library produces
(the fixed 10 s TTL) this agrees exactly with the Go float
computation. -/
def roundSecondsNS (d : Int) : Int :=
  Int.ediv (2 * d + 1000000000) 2000000000

/-- The "last touched" time used by `lock`'s expiration check
(mutex.go lines 146-150): `renewTime` if present, else `acquireTime`.
The default is never reached on the paths where this is used, because
`lock` has already checked that `acquireTime` is present. -/
def lastUpdatedNS (l : LeaseSpec) : Int :=
  match l.renewTime with
  | some r => r
  | none => l.acquireTime.getD 0

/-- The expiration time of a held record (mutex.go lines 143-152):
(`renewTime` ?? `acquireTime`) + `leaseDurationSeconds` seconds. -/
def expiresAt (l : LeaseSpec) : Int :=
  lastUpdatedNS l + l.leaseDurationSeconds.getD 0 * 1000000000

/-- The record written by `lock`'s claiming update (mutex.go lines
161-171): `holderIdentity` becomes this mutex's identity,
`leaseTransitions` is the fetched counter (defaulted to 0) plus one in
`int32` arithmetic, `acquireTime` becomes "now", and
`leaseDurationSeconds` becomes the configured TTL rounded to seconds
and converted to `int32`.  All other fields - in particular
`renewTime` - are carried over from the fetched record unchanged. -/
def claimSpec (m : MutexCfg) (l : LeaseSpec) (now : Int) : LeaseSpec :=
  { l with
    holderIdentity := some m.uniqueID
    leaseTransitions := some (wrap32 (l.leaseTransitions.getD 0 + 1))
    acquireTime := some now
    leaseDurationSeconds := some (wrap32 (roundSecondsNS m.expirationNS)) }

/-- The errors `Extend`/`Unlock` can return: `ErrNotLocked`,
`ErrLockedByAnother` (mutex.go lines 35-44), or a wrapped store error
from the final update. -/
inductive MutexErr where
  | notLocked
  | lockedByAnother
  | updateFailed
deriving DecidableEq

/-- `Mutex.Extend` (mutex.go lines 196-220) against a store holding
`s`.  `gFail` injects a failure of the `Get` round trip (any such
failure, including not-found, is mapped to `ErrNotLocked`); `uFail`
injects a failure of the `Update` round trip (surfaced as a wrapped
store error).  Returns the Go error (`none` = nil) and the store
contents after the call. -/
def extend (id : String) (gFail uFail : Bool) (s : Option LeaseSpec)
    (now : Int) : Option MutexErr × Option LeaseSpec :=
  if gFail = true then (some .notLocked, s)
  else
    match s with
    | none => (some .notLocked, s)
    | some l =>
      match l.holderIdentity with
      | none => (some .notLocked, s)
      | some h =>
        if h = id then
          if uFail = true then (some .updateFailed, s)
          else (none, some { l with renewTime := some now })
        else (some .lockedByAnother, s)

/-- `Mutex.Unlock` (mutex.go lines 224-251).  Same Get error mapping
and ownership checks as `extend`; on success clears `holderIdentity`,
`acquireTime`, `renewTime` and `leaseDurationSeconds` and leaves
`leaseTransitions` alone. -/
def unlock (id : String) (gFail uFail : Bool) (s : Option LeaseSpec) :
    Option MutexErr × Option LeaseSpec :=
  if gFail = true then (some .notLocked, s)
  else
    match s with
    | none => (some .notLocked, s)
    | some l =>
      match l.holderIdentity with
      | none => (some .notLocked, s)
      | some h =>
        if h = id then
          if uFail = true then (some .updateFailed, s)
          else
            (none, some { holderIdentity := none
                          acquireTime := none
                          renewTime := none
                          leaseDurationSeconds := none
                          leaseTransitions := l.leaseTransitions })
        else (some .lockedByAnother, s)

/-- The errors a `lock` call can return (mutex.go lines 110-190):
a non-already-exists failure of the bootstrap `Create`, a failure of
the in-loop `Get`, the malformed-record error ("lease has no duration
or acquisition time"), or the context's cancellation error. -/
inductive LockErr where
  | createErr
  | getErr
  | malformed
  | cancelled
deriving DecidableEq

/-- Program counter of one `lock` call, mirroring mutex.go:
* `start`: about to issue the bootstrap `Create` (line 113);
* `loopHead`: about to test `ctx.Err() == nil` and then `Get`
  (lines 129-130);
* `fetched l v`: holds the record `l` fetched at store version `v`,
  about to run the held/expired checks and possibly the claiming
  `Update` (lines 136-178);
* `sleepRetry`: inside `sleep(ctx, m.retryDur)` (lines 154, 181);
* `postLoop`: after leaving the loop, about to run the final
  `ctx.Err()` check (line 185);
* `done`: returned `nil` (lock acquired);
* `ret e`: returned the error `e`. -/
inductive PC where
  | start
  | loopHead
  | fetched (l : LeaseSpec) (v : Nat)
  | sleepRetry
  | postLoop
  | done
  | ret (e : LockErr)
deriving DecidableEq

/-- The local state of one `lock` call: its program counter, whether
its context has been cancelled, and a history flag recording whether
this call's claiming `Update` has been applied to the store. -/
structure Proc where
  pc : PC
  cancelled : Bool
  updated : Bool
deriving DecidableEq

/-- A `lock` call that has not started and whose context is live. -/
def procStart : Proc := { pc := .start, cancelled := false, updated := false }

/-- The shared store: the lease record (if created) and its version
marker (`resourceVersion`), incremented by every successful write.
An `Update` carrying a stale version is rejected by the API server
(optimistic concurrency). -/
structure Store where
  record : Option LeaseSpec
  ver : Nat
deriving DecidableEq

/-- The claim attempt at the end of a loop iteration (mutex.go lines
161-178): submit `claimSpec` as a conditional update of the record
fetched at version `v`.  It is applied only if the store is still at
version `v` and no other failure is injected (`ok`); on success the
call breaks out of the loop (`postLoop`), otherwise it sleeps and
retries. -/
def tryClaim (m : MutexCfg) (ok : Bool) (p : Proc) (l : LeaseSpec)
    (v : Nat) (s : Store) (now : Int) : Proc × Store :=
  if ok = true ∧ v = s.ver then
    ({ p with pc := .postLoop, updated := true },
     { record := some (claimSpec m l now), ver := s.ver + 1 })
  else ({ p with pc := .sleepRetry }, s)

/-- The body of a loop iteration once the record `l` has been fetched
(mutex.go lines 136-178): if a holder is recorded, require
`leaseDurationSeconds` and `acquireTime` (else fail with the
malformed-record error); if the lease is unexpired
(`lastUpdated + duration` after now), sleep and retry; otherwise
attempt the claim. -/
def stepFetched (m : MutexCfg) (ok : Bool) (p : Proc) (l : LeaseSpec)
    (v : Nat) (s : Store) (now : Int) : Proc × Store :=
  if l.holderIdentity ≠ none then
    if l.leaseDurationSeconds = none ∨ l.acquireTime = none then
      ({ p with pc := .ret .malformed }, s)
    else if now < expiresAt l then ({ p with pc := .sleepRetry }, s)
    else tryClaim m ok p l v s now
  else tryClaim m ok p l v s now

/-- The transition of a `lock` call whose program counter is `pc`;
see `lockStep`. -/
def lockStepAux (m : MutexCfg) (ok : Bool) (p : Proc) (pc : PC)
    (s : Store) (now : Int) : Proc × Store :=
  match pc with
  | .start =>
    if ok = false then ({ p with pc := .ret .createErr }, s)
    else
      match s.record with
      | none => ({ p with pc := .loopHead },
                 { record := some emptyLease, ver := s.ver + 1 })
      | some _ => ({ p with pc := .loopHead }, s)
  | .loopHead =>
    if p.cancelled = true then ({ p with pc := .postLoop }, s)
    else if ok = false then ({ p with pc := .ret .getErr }, s)
    else
      match s.record with
      | none => ({ p with pc := .ret .getErr }, s)
      | some l => ({ p with pc := .fetched l s.ver }, s)
  | .fetched l v => stepFetched m ok p l v s now
  | .sleepRetry =>
    if p.cancelled = true then ({ p with pc := .ret .cancelled }, s)
    else ({ p with pc := .loopHead }, s)
  | .postLoop =>
    if p.cancelled = true then ({ p with pc := .ret .cancelled }, s)
    else ({ p with pc := .done }, s)
  | .done => (p, s)
  | .ret _ => (p, s)

/-- One atomic step of a `lock` call against the store at time `now`.
`ok = false` injects a failure of the store round trip performed at
this step (an arbitrary create/get/update error from the external
client).  Terminal states (`done`, `ret`) do not move. -/
def lockStep (m : MutexCfg) (ok : Bool) (p : Proc) (s : Store)
    (now : Int) : Proc × Store :=
  lockStepAux m ok p p.pc s now

theorem lockStep_eq (m : MutexCfg) (ok : Bool) (p : Proc) (s : Store)
    (now : Int) : lockStep m ok p s now = lockStepAux m ok p p.pc s now := rfl

/-- A global configuration: the shared store, the current wall-clock
time, and the local states of two contending `lock` calls `pa`
(running with configuration `mA`) and `pb` (with `mB`). -/
structure Cfg2 where
  store : Store
  now : Int
  pa : Proc
  pb : Proc
deriving DecidableEq

/-- Interleaved execution of two `lock` calls against the shared
store: the clock may advance, either call's context may be cancelled
at any moment, and either call may perform its next atomic store
interaction (with `ok` choosing whether the external client injects a
failure). -/
inductive Step2 (mA mB : MutexCfg) : Cfg2 → Cfg2 → Prop where
  | tick (c : Cfg2) (d : Int) (hd : 0 ≤ d) :
      Step2 mA mB c { c with now := c.now + d }
  | cancelA (c : Cfg2) :
      Step2 mA mB c { c with pa := { c.pa with cancelled := true } }
  | cancelB (c : Cfg2) :
      Step2 mA mB c { c with pb := { c.pb with cancelled := true } }
  | stepA (c : Cfg2) (ok : Bool) :
      Step2 mA mB c { c with
        pa := (lockStep mA ok c.pa c.store c.now).1
        store := (lockStep mA ok c.pa c.store c.now).2 }
  | stepB (c : Cfg2) (ok : Bool) :
      Step2 mA mB c { c with
        pb := (lockStep mB ok c.pb c.store c.now).1
        store := (lockStep mB ok c.pb c.store c.now).2 }

/-- Reachability in the two-contender machine. -/
def Reach2 (mA mB : MutexCfg) (c c' : Cfg2) : Prop :=
  Relation.ReflTransGen (Step2 mA mB) c c'

/-- A record is held and unexpired at time `now`: a holder is
recorded, the TTL fields are present, and the expiration time is
strictly in the future. -/
def heldUnexpired (l : LeaseSpec) (now : Int) : Prop :=
  l.holderIdentity ≠ none ∧ l.leaseDurationSeconds ≠ none ∧
    l.acquireTime ≠ none ∧ now < expiresAt l

/-- The initial configuration of two `lock` calls racing for a lock
whose lease record does not exist yet. -/
def init2 (n0 : Int) : Cfg2 :=
  { store := { record := none, ver := 0 }, now := n0
    pa := procStart, pb := procStart }

/-- Version freshness: whatever record a `lock` call is holding was
fetched at a version not newer than the store's, and if the versions
agree the store still holds exactly that record.  This is the
optimistic-concurrency fact the claiming update relies on. -/
def verOK (p : Proc) (s : Store) : Prop :=
  ∀ l v, p.pc = PC.fetched l v → v ≤ s.ver ∧ (v = s.ver → s.record = some l)

/-- The inductive invariant of the two-contender machine. -/
def Inv2 (c : Cfg2) : Prop := verOK c.pa c.store ∧ verOK c.pb c.store

theorem lockStep_store_eq_or_succ (m : MutexCfg) (ok : Bool) (p : Proc)
    (s : Store) (now : Int) :
    (lockStep m ok p s now).2 = s ∨ (lockStep m ok p s now).2.ver = s.ver + 1 := by
  obtain ⟨pc, pcanc, pupd⟩ := p
  cases pc <;> simp only [lockStep, lockStepAux]
  case start =>
    split
    · simp
    · cases s.record <;> simp
  case loopHead =>
    split
    · simp
    · split
      · simp
      · cases s.record <;> simp
  case fetched l v =>
    unfold stepFetched tryClaim
    split
    · split
      · simp
      · split
        · simp
        · split <;> simp
    · split <;> simp
  case sleepRetry => split <;> simp
  case postLoop => split <;> simp
  case done => simp
  case ret e => simp

theorem lockStep_fetched_src (m : MutexCfg) (ok : Bool) (p : Proc)
    (s : Store) (now : Int) (l : LeaseSpec) (v : Nat)
    (h : (lockStep m ok p s now).1.pc = PC.fetched l v) :
    v = s.ver ∧ s.record = some l ∧ (lockStep m ok p s now).2 = s := by
  obtain ⟨pc, pcanc, pupd⟩ := p
  cases pc <;> simp only [lockStep, lockStepAux] at h ⊢
  case start =>
    split at h
    · simp at h
    · cases hrec : s.record <;> rw [hrec] at h <;> simp at h
  case loopHead =>
    split at h
    · simp at h
    · split at h
      · simp at h
      · cases hrec : s.record <;> rw [hrec] at h <;> simp_all
  case fetched lx vx =>
    unfold stepFetched tryClaim at h
    split at h
    · split at h
      · simp at h
      · split at h
        · simp at h
        · split at h <;> simp at h
    · split at h <;> simp at h
  case sleepRetry => split at h <;> simp at h
  case postLoop => split at h <;> simp at h
  case done => simp at h
  case ret e => simp at h

theorem verOK_self (m : MutexCfg) (ok : Bool) (p : Proc) (s : Store)
    (now : Int) :
    verOK (lockStep m ok p s now).1 (lockStep m ok p s now).2 := by
  intro l v hpc
  obtain ⟨hv, hrec, hs⟩ := lockStep_fetched_src m ok p s now l v hpc
  rw [hs, hv]
  exact ⟨le_refl _, fun _ => hrec⟩

theorem verOK_other (m : MutexCfg) (ok : Bool) (p q : Proc) (s : Store)
    (now : Int) (h : verOK q s) :
    verOK q (lockStep m ok p s now).2 := by
  rcases lockStep_store_eq_or_succ m ok p s now with he | hv
  · rw [he]; exact h
  · intro l v hpc
    obtain ⟨h1, _⟩ := h l v hpc
    rw [hv]
    exact ⟨Nat.le_succ_of_le h1, fun hveq => absurd hveq (by omega)⟩

theorem inv2_step (mA mB : MutexCfg) (c c' : Cfg2) (hinv : Inv2 c)
    (hstep : Step2 mA mB c c') : Inv2 c' := by
  obtain ⟨ha, hb⟩ := hinv
  cases hstep with
  | tick d hd => exact ⟨ha, hb⟩
  | cancelA =>
    refine ⟨fun l v hpc => ha l v ?_, hb⟩
    simpa using hpc
  | cancelB =>
    refine ⟨ha, fun l v hpc => hb l v ?_⟩
    simpa using hpc
  | stepA ok =>
    exact ⟨verOK_self mA ok c.pa c.store c.now,
           verOK_other mA ok c.pa c.pb c.store c.now hb⟩
  | stepB ok =>
    exact ⟨verOK_other mB ok c.pb c.pa c.store c.now ha,
           verOK_self mB ok c.pb c.store c.now⟩

theorem inv2_reach (mA mB : MutexCfg) (c0 c : Cfg2) (h0 : Inv2 c0)
    (hreach : Reach2 mA mB c0 c) : Inv2 c := by
  induction hreach with
  | refl => exact h0
  | tail _ hstep ih => exact inv2_step mA mB _ _ ih hstep

theorem inv2_init2 (n0 : Int) : Inv2 (init2 n0) := by
  constructor <;> intro l v hpc <;> simp [init2, procStart] at hpc

/-- While the store's record is held and unexpired, no step of either
`lock` call can change the store or perform a claiming update. -/
theorem lockStep_no_claim (m : MutexCfg) (ok : Bool) (p : Proc) (s : Store)
    (now : Int) (l : LeaseSpec) (hrec : s.record = some l)
    (hheld : heldUnexpired l now) (hinv : verOK p s) :
    (lockStep m ok p s now).2 = s ∧
      (lockStep m ok p s now).1.updated = p.updated := by
  obtain ⟨hh, hdur, hacq, hexp⟩ := hheld
  obtain ⟨pc, pcanc, pupd⟩ := p
  cases pc <;> simp only [lockStep, lockStepAux]
  case start =>
    split
    · simp
    · rw [hrec]
      simp
  case loopHead =>
    split
    · simp
    · split
      · simp
      · rw [hrec]
        simp
  case fetched lx vx =>
    have htry : (tryClaim m ok ⟨PC.fetched lx vx, pcanc, pupd⟩ lx vx s now).2 = s ∧
        (tryClaim m ok ⟨PC.fetched lx vx, pcanc, pupd⟩ lx vx s now).1.updated = pupd ∨
        lx = l := by
      unfold tryClaim
      split
      · next hand =>
        obtain ⟨_, heq⟩ := hinv lx vx rfl
        rw [hrec] at heq
        exact Or.inr (Option.some_injective _ (heq hand.2).symm)
      · simp
    unfold stepFetched
    split
    · split
      · simp
      · split
        · simp
        · next hnotheld =>
          rcases htry with ⟨h1, h2⟩ | hlxl
          · exact ⟨h1, h2⟩
          · subst hlxl
            exact absurd hexp hnotheld
    · next hnone =>
      rcases htry with ⟨h1, h2⟩ | hlxl
      · exact ⟨h1, h2⟩
      · subst hlxl
        exact absurd (not_not.mp hnone) hh
  case sleepRetry => split <;> simp
  case postLoop => split <;> simp
  case done => simp
  case ret e => simp

theorem step2A_of_eq (mA mB : MutexCfg) (c c' : Cfg2) (ok : Bool)
    (h : c' = { c with
      pa := (lockStep mA ok c.pa c.store c.now).1
      store := (lockStep mA ok c.pa c.store c.now).2 }) :
    Step2 mA mB c c' := h ▸ Step2.stepA c ok

theorem step2B_of_eq (mA mB : MutexCfg) (c c' : Cfg2) (ok : Bool)
    (h : c' = { c with
      pb := (lockStep mB ok c.pb c.store c.now).1
      store := (lockStep mB ok c.pb c.store c.now).2 }) :
    Step2 mA mB c c' := h ▸ Step2.stepB c ok

theorem step2CancelA_of_eq (mA mB : MutexCfg) (c c' : Cfg2)
    (h : c' = { c with pa := { c.pa with cancelled := true } }) :
    Step2 mA mB c c' := h ▸ Step2.cancelA c

/-- C1.  Mutual exclusion: in any reachable configuration of two
`lock` calls racing for the same lease, while the store's record is
held and its expiration time is strictly in the future, (i) no step of
either call changes the store or applies a claiming update - so a
second `Lock` cannot return success until the holder's lease expires
or is released - and (ii) a contender that has fetched the current
record observes the lock as held and moves to the retry sleep,
i.e. keeps polling. -/
theorem c1_mutual_exclusion (mA mB : MutexCfg) (n0 : Int) (c c' : Cfg2)
    (l : LeaseSpec)
    (hreach : Reach2 mA mB (init2 n0) c)
    (hstep : Step2 mA mB c c')
    (hrec : c.store.record = some l)
    (hheld : heldUnexpired l c.now) :
    c'.store = c.store ∧ c'.pa.updated = c.pa.updated ∧
      c'.pb.updated = c.pb.updated ∧
      (∀ lx vx ok, c.pa.pc = PC.fetched lx vx → vx = c.store.ver →
        (lockStep mA ok c.pa c.store c.now).1.pc = PC.sleepRetry) ∧
      (∀ lx vx ok, c.pb.pc = PC.fetched lx vx → vx = c.store.ver →
        (lockStep mB ok c.pb c.store c.now).1.pc = PC.sleepRetry) := by
  obtain ⟨hia, hib⟩ := inv2_reach mA mB _ c (inv2_init2 n0) hreach
  have hpoll : ∀ (m : MutexCfg) (p : Proc), verOK p c.store →
      ∀ lx vx ok, p.pc = PC.fetched lx vx → vx = c.store.ver →
        (lockStep m ok p c.store c.now).1.pc = PC.sleepRetry := by
    intro m p hv lx vx ok hpc hvx
    obtain ⟨_, heq⟩ := hv lx vx hpc
    have hlx : lx = l := by
      rw [hrec] at heq
      exact Option.some_injective _ (heq hvx).symm
    obtain ⟨hh, hdur, hacq, hexp⟩ := hheld
    rw [lockStep_eq, hpc, hlx]
    simp only [lockStepAux]
    unfold stepFetched
    rw [if_pos hh, if_neg (by simp [hdur, hacq]), if_pos hexp]
  have hA := fun ok => lockStep_no_claim mA ok c.pa c.store c.now l hrec hheld hia
  have hB := fun ok => lockStep_no_claim mB ok c.pb c.store c.now l hrec hheld hib
  refine ⟨?_, ?_, ?_, hpoll mA c.pa hia, hpoll mB c.pb hib⟩ <;>
    cases hstep with
    | tick d hd => simp
    | cancelA => simp
    | cancelB => simp
    | stepA ok => simp [(hA ok).1, (hA ok).2]
    | stepB ok => simp [(hB ok).1, (hB ok).2]

/-- A concrete run of the two-contender machine: contender "a" has
created the lease record, fetched it, and claimed it at time 0, and
contender "b" has not started. -/
def cfgCreateDone : Cfg2 :=
  ⟨⟨some emptyLease, 1⟩, 0, ⟨.loopHead, false, false⟩, procStart⟩

def cfgFetchDone : Cfg2 :=
  ⟨⟨some emptyLease, 1⟩, 0, ⟨.fetched emptyLease 1, false, false⟩, procStart⟩

def cfgClaimDone : Cfg2 :=
  ⟨⟨some (claimSpec (newMutex "a") emptyLease 0), 2⟩, 0,
   ⟨.postLoop, false, true⟩, procStart⟩

def cfgClaimDoneB : Cfg2 :=
  ⟨⟨some (claimSpec (newMutex "a") emptyLease 0), 2⟩, 0,
   ⟨.postLoop, false, true⟩, ⟨.loopHead, false, false⟩⟩

/-- Witness for C1 at a concrete configuration: "a" holds the lease
(expiring at 10 s, still in the future at time 0), a bootstrap step of
contender "b" is taken, and the store and the claiming-update flags
are unchanged by it. -/
theorem c1_mutual_exclusion_witness :
    Reach2 (newMutex "a") (newMutex "b") (init2 0) cfgClaimDone ∧
    Step2 (newMutex "a") (newMutex "b") cfgClaimDone cfgClaimDoneB ∧
    heldUnexpired (claimSpec (newMutex "a") emptyLease 0) cfgClaimDone.now ∧
    cfgClaimDoneB.store = cfgClaimDone.store ∧
    cfgClaimDoneB.pb.updated = cfgClaimDone.pb.updated := by
  have s1 : Step2 (newMutex "a") (newMutex "b") (init2 0) cfgCreateDone :=
    step2A_of_eq _ _ _ _ true (by decide)
  have s2 : Step2 (newMutex "a") (newMutex "b") cfgCreateDone cfgFetchDone :=
    step2A_of_eq _ _ _ _ true (by decide)
  have s3 : Step2 (newMutex "a") (newMutex "b") cfgFetchDone cfgClaimDone :=
    step2A_of_eq _ _ _ _ true (by decide)
  have hstep : Step2 (newMutex "a") (newMutex "b") cfgClaimDone cfgClaimDoneB :=
    step2B_of_eq _ _ _ _ true (by decide)
  have hreach : Reach2 (newMutex "a") (newMutex "b") (init2 0) cfgClaimDone :=
    Relation.ReflTransGen.tail
      (Relation.ReflTransGen.tail
        (Relation.ReflTransGen.tail Relation.ReflTransGen.refl s1) s2) s3
  have hheld : heldUnexpired (claimSpec (newMutex "a") emptyLease 0) cfgClaimDone.now :=
    ⟨by decide, by decide, by decide, by decide⟩
  have hmain := c1_mutual_exclusion (newMutex "a") (newMutex "b") 0
    cfgClaimDone cfgClaimDoneB (claimSpec (newMutex "a") emptyLease 0)
    hreach hstep (by decide) hheld
  exact ⟨hreach, hstep, hheld, hmain.1, hmain.2.2.1⟩

theorem lockStep_done_pc (m : MutexCfg) (ok : Bool) (p : Proc) (s : Store)
    (now : Int) (hpc : p.pc = PC.done) : lockStep m ok p s now = (p, s) := by
  rw [lockStep_eq, hpc]
  rfl

theorem lockStep_ret_pc (m : MutexCfg) (ok : Bool) (p : Proc) (s : Store)
    (now : Int) (e : LockErr) (hpc : p.pc = PC.ret e) :
    lockStep m ok p s now = (p, s) := by
  rw [lockStep_eq, hpc]
  rfl

theorem lockStep_start_some (m : MutexCfg) (ok : Bool) (p : Proc) (s : Store)
    (now : Int) (l : LeaseSpec) (hpc : p.pc = PC.start)
    (hs : s.record = some l) :
    lockStep m ok p s now =
      if ok = false then ({ p with pc := .ret .createErr }, s)
      else ({ p with pc := .loopHead }, s) := by
  rw [lockStep_eq, hpc]
  simp only [lockStepAux]
  split <;> simp [hs]

theorem lockStep_loopHead_cancelled (m : MutexCfg) (ok : Bool) (p : Proc)
    (s : Store) (now : Int) (hpc : p.pc = PC.loopHead)
    (hc : p.cancelled = true) :
    lockStep m ok p s now = ({ p with pc := .postLoop }, s) := by
  rw [lockStep_eq, hpc]
  simp only [lockStepAux]
  rw [if_pos hc]

theorem lockStep_postLoop_cancelled (m : MutexCfg) (ok : Bool) (p : Proc)
    (s : Store) (now : Int) (hpc : p.pc = PC.postLoop)
    (hc : p.cancelled = true) :
    lockStep m ok p s now = ({ p with pc := .ret .cancelled }, s) := by
  rw [lockStep_eq, hpc]
  simp only [lockStepAux]
  rw [if_pos hc]

/-- A step never clears the claiming-update history flag. -/
theorem lockStep_updated_mono (m : MutexCfg) (ok : Bool) (p : Proc)
    (s : Store) (now : Int) :
    (lockStep m ok p s now).1.updated = p.updated ∨
      (lockStep m ok p s now).1.updated = true := by
  obtain ⟨pc, pcanc, pupd⟩ := p
  cases pc <;> simp only [lockStep, lockStepAux]
  case start =>
    split
    · simp
    · cases s.record <;> simp
  case loopHead =>
    split
    · simp
    · split
      · simp
      · cases s.record <;> simp
  case fetched l v =>
    unfold stepFetched tryClaim
    split
    · split
      · simp
      · split
        · simp
        · split <;> simp
    · split <;> simp
  case sleepRetry => split <;> simp
  case postLoop => split <;> simp
  case done => simp
  case ret e => simp

/-- A step changes the store only by the bootstrap create (when the
record is absent) or by a claiming update (which sets the history
flag). -/
theorem lockStep_store_change (m : MutexCfg) (ok : Bool) (p : Proc)
    (s : Store) (now : Int) :
    (lockStep m ok p s now).2 = s ∨
      (s.record = none ∧
        (lockStep m ok p s now).2 = ⟨some emptyLease, s.ver + 1⟩) ∨
      (lockStep m ok p s now).1.updated = true := by
  obtain ⟨pc, pcanc, pupd⟩ := p
  cases pc <;> simp only [lockStep, lockStepAux]
  case start =>
    split
    · simp
    · cases hrec : s.record <;> simp [hrec]
  case loopHead =>
    split
    · simp
    · split
      · simp
      · cases s.record <;> simp
  case fetched l v =>
    unfold stepFetched tryClaim
    split
    · split
      · simp
      · split
        · simp
        · split <;> simp
    · split <;> simp
  case sleepRetry => split <;> simp
  case postLoop => split <;> simp
  case done => simp
  case ret e => simp

/-- Invariant of a single `lock` call run with an already-cancelled
context against an existing record (the second contender is parked in
a terminal state): the store is never touched, no claiming update
happens, and the call can only be at the create, the loop-condition
test, the final context check, or have returned the cancellation or
the create error. -/
theorem c4_cancelled_inv (mA mB : MutexCfg) (l0 : LeaseSpec) (v0 : Nat)
    (n0 : Int) (pb0 : Proc) (hpb : pb0.pc = PC.done) (c : Cfg2)
    (h : Reach2 mA mB ⟨⟨some l0, v0⟩, n0, ⟨.start, true, false⟩, pb0⟩ c) :
    c.store = ⟨some l0, v0⟩ ∧ c.pa.cancelled = true ∧
      c.pa.updated = false ∧
      (c.pa.pc = .start ∨ c.pa.pc = .loopHead ∨ c.pa.pc = .postLoop ∨
        c.pa.pc = .ret .cancelled ∨ c.pa.pc = .ret .createErr) ∧
      c.pb.pc = PC.done := by
  induction h with
  | refl => exact ⟨rfl, rfl, rfl, Or.inl rfl, hpb⟩
  | @tail b c hr hstep ih =>
    obtain ⟨ihs, ihc, ihu, ihpc, ihb⟩ := ih
    cases hstep with
    | tick d hd => exact ⟨ihs, ihc, ihu, ihpc, ihb⟩
    | cancelA => exact ⟨ihs, rfl, ihu, ihpc, ihb⟩
    | cancelB => exact ⟨ihs, ihc, ihu, ihpc, ihb⟩
    | stepA ok =>
      have hs0 : b.store.record = some l0 := by rw [ihs]
      rcases ihpc with hpc | hpc | hpc | hpc | hpc
      · rw [lockStep_start_some mA ok b.pa b.store b.now l0 hpc hs0]
        split
        · exact ⟨ihs, ihc, ihu, Or.inr (Or.inr (Or.inr (Or.inr rfl))), ihb⟩
        · exact ⟨ihs, ihc, ihu, Or.inr (Or.inl rfl), ihb⟩
      · rw [lockStep_loopHead_cancelled mA ok b.pa b.store b.now hpc ihc]
        exact ⟨ihs, ihc, ihu, Or.inr (Or.inr (Or.inl rfl)), ihb⟩
      · rw [lockStep_postLoop_cancelled mA ok b.pa b.store b.now hpc ihc]
        exact ⟨ihs, ihc, ihu, Or.inr (Or.inr (Or.inr (Or.inl rfl))), ihb⟩
      · rw [lockStep_ret_pc mA ok b.pa b.store b.now _ hpc]
        exact ⟨ihs, ihc, ihu, Or.inr (Or.inr (Or.inr (Or.inl hpc))), ihb⟩
      · rw [lockStep_ret_pc mA ok b.pa b.store b.now _ hpc]
        exact ⟨ihs, ihc, ihu, Or.inr (Or.inr (Or.inr (Or.inr hpc))), ihb⟩
    | stepB ok =>
      rw [lockStep_done_pc mB ok b.pb b.store b.now ihb]
      exact ⟨ihs, ihc, ihu, ihpc, ihb⟩

/-- Invariant of a single `lock` call (the second contender parked in
a terminal state): as long as its claiming update has not been
applied, the only store write the call can have performed is the
bootstrap create of the empty record. -/
theorem c4_no_update_inv (mA mB : MutexCfg) (rec0 : Option LeaseSpec)
    (v0 : Nat) (n0 : Int) (ca : Bool) (pb0 : Proc) (hpb : pb0.pc = PC.done)
    (c : Cfg2)
    (h : Reach2 mA mB ⟨⟨rec0, v0⟩, n0, ⟨.start, ca, false⟩, pb0⟩ c) :
    c.pb.pc = PC.done ∧
      (c.pa.updated = false →
        c.store.record = rec0 ∨
          (rec0 = none ∧ c.store.record = some emptyLease)) := by
  induction h with
  | refl => exact ⟨hpb, fun _ => Or.inl rfl⟩
  | @tail b c hr hstep ih =>
    obtain ⟨ihb, ihu⟩ := ih
    cases hstep with
    | tick d hd => exact ⟨ihb, ihu⟩
    | cancelA => exact ⟨ihb, ihu⟩
    | cancelB => exact ⟨ihb, ihu⟩
    | stepA ok =>
      refine ⟨ihb, fun hu => ?_⟩
      have hpu : b.pa.updated = false := by
        rcases lockStep_updated_mono mA ok b.pa b.store b.now with he | ht
        · rw [← he]; exact hu
        · rw [ht] at hu; exact absurd hu (by simp)
      rcases lockStep_store_change mA ok b.pa b.store b.now with he | ⟨hn, hb2⟩ | ht
      · show (lockStep mA ok b.pa b.store b.now).2.record = rec0 ∨ _
        rw [he]
        exact ihu hpu
      · rcases ihu hpu with h1 | ⟨h2, _⟩
        · refine Or.inr ⟨by rw [← h1, hn], ?_⟩
          show (lockStep mA ok b.pa b.store b.now).2.record = some emptyLease
          rw [hb2]
        · refine Or.inr ⟨h2, ?_⟩
          show (lockStep mA ok b.pa b.store b.now).2.record = some emptyLease
          rw [hb2]
      · rw [ht] at hu; exact absurd hu (by simp)
    | stepB ok =>
      rw [lockStep_done_pc mB ok b.pb b.store b.now ihb]
      exact ⟨ihb, ihu⟩

/-- C4 (amended).  Cancellation vs. side effects of `lock`:
(i) a `lock` call whose context is already cancelled when it starts,
run against an existing record, never touches the store, never applies
a claiming update, and can only return the cancellation error or a
bootstrap-create error (never an error from deeper in the loop);
(ii) in general, whenever a `lock` call has not applied its claiming
update - in particular whenever it returns the cancellation error
without the claim having succeeded - the only store write it can have
performed is the idempotent bootstrap create of the empty record.
(The unamended claim - that a `lock` call returning the cancellation
error has never applied its claiming update - is refuted by
`c4_counterexample`: cancellation arriving between the successful
claiming update and the final context check makes `lock` return
`ctx.Err()` with the claim applied.) -/
theorem c4_cancellation (mA mB : MutexCfg) :
    (∀ (l0 : LeaseSpec) (v0 : Nat) (n0 : Int) (pb0 : Proc) (c : Cfg2),
      pb0.pc = PC.done →
      Reach2 mA mB ⟨⟨some l0, v0⟩, n0, ⟨.start, true, false⟩, pb0⟩ c →
      c.store = ⟨some l0, v0⟩ ∧ c.pa.updated = false ∧
        ∀ e, c.pa.pc = PC.ret e → e = .cancelled ∨ e = .createErr) ∧
    (∀ (rec0 : Option LeaseSpec) (v0 : Nat) (n0 : Int) (ca : Bool)
        (pb0 : Proc) (c : Cfg2),
      pb0.pc = PC.done →
      Reach2 mA mB ⟨⟨rec0, v0⟩, n0, ⟨.start, ca, false⟩, pb0⟩ c →
      c.pa.updated = false →
      c.store.record = rec0 ∨
        (rec0 = none ∧ c.store.record = some emptyLease)) := by
  constructor
  · intro l0 v0 n0 pb0 c hpb hr
    obtain ⟨hs, _, hu, hpc, _⟩ := c4_cancelled_inv mA mB l0 v0 n0 pb0 hpb c hr
    refine ⟨hs, hu, fun e he => ?_⟩
    rcases hpc with h | h | h | h | h <;> rw [he] at h
    · exact absurd h (by simp)
    · exact absurd h (by simp)
    · exact absurd h (by simp)
    · exact Or.inl (by injection h)
    · exact Or.inr (by injection h)
  · intro rec0 v0 n0 ca pb0 c hpb hr hu
    exact (c4_no_update_inv mA mB rec0 v0 n0 ca pb0 hpb c hr).2 hu

/-- An already-held, non-expiring record: held by "other" with a huge
TTL. -/
def heldLease : LeaseSpec :=
  { holderIdentity := some "other"
    acquireTime := some 0
    renewTime := none
    leaseDurationSeconds := some 1000000
    leaseTransitions := some 7 }

/-- Witness for C4: a `lock` call of "a" with an already-cancelled
context against the already-held record, run to its return.  The trace
create / loop-condition / final-check ends in the cancellation error,
with the store untouched and no claiming update. -/
theorem c4_cancellation_witness :
    Reach2 (newMutex "a") (newMutex "b")
      ⟨⟨some heldLease, 5⟩, 0, ⟨.start, true, false⟩, ⟨.done, false, false⟩⟩
      ⟨⟨some heldLease, 5⟩, 0, ⟨.ret .cancelled, true, false⟩, ⟨.done, false, false⟩⟩ ∧
    (⟨⟨some heldLease, 5⟩, 0, ⟨.ret .cancelled, true, false⟩,
        ⟨.done, false, false⟩⟩ : Cfg2).store = ⟨some heldLease, 5⟩ ∧
    (⟨⟨some heldLease, 5⟩, 0, ⟨.ret .cancelled, true, false⟩,
        ⟨.done, false, false⟩⟩ : Cfg2).pa.updated = false := by
  have s1 : Step2 (newMutex "a") (newMutex "b")
      ⟨⟨some heldLease, 5⟩, 0, ⟨.start, true, false⟩, ⟨.done, false, false⟩⟩
      ⟨⟨some heldLease, 5⟩, 0, ⟨.loopHead, true, false⟩, ⟨.done, false, false⟩⟩ :=
    step2A_of_eq _ _ _ _ true (by decide)
  have s2 : Step2 (newMutex "a") (newMutex "b")
      ⟨⟨some heldLease, 5⟩, 0, ⟨.loopHead, true, false⟩, ⟨.done, false, false⟩⟩
      ⟨⟨some heldLease, 5⟩, 0, ⟨.postLoop, true, false⟩, ⟨.done, false, false⟩⟩ :=
    step2A_of_eq _ _ _ _ true (by decide)
  have s3 : Step2 (newMutex "a") (newMutex "b")
      ⟨⟨some heldLease, 5⟩, 0, ⟨.postLoop, true, false⟩, ⟨.done, false, false⟩⟩
      ⟨⟨some heldLease, 5⟩, 0, ⟨.ret .cancelled, true, false⟩, ⟨.done, false, false⟩⟩ :=
    step2A_of_eq _ _ _ _ true (by decide)
  have hreach : Reach2 (newMutex "a") (newMutex "b")
      ⟨⟨some heldLease, 5⟩, 0, ⟨.start, true, false⟩, ⟨.done, false, false⟩⟩
      ⟨⟨some heldLease, 5⟩, 0, ⟨.ret .cancelled, true, false⟩, ⟨.done, false, false⟩⟩ :=
    Relation.ReflTransGen.tail
      (Relation.ReflTransGen.tail
        (Relation.ReflTransGen.tail Relation.ReflTransGen.refl s1) s2) s3
  have hmain := (c4_cancellation (newMutex "a") (newMutex "b")).1 heldLease 5 0
    ⟨.done, false, false⟩ _ rfl hreach
  exact ⟨hreach, hmain.1, hmain.2.1⟩

/-- The configuration after "a"'s claiming update succeeded and its
context was then cancelled, about to run the final context check. -/
def c4Cex4 : Cfg2 :=
  ⟨⟨some (claimSpec (newMutex "a") emptyLease 0), 2⟩, 0,
   ⟨.postLoop, true, true⟩, procStart⟩

/-- The configuration after the final context check: `lock` has
returned the cancellation error, yet its claiming update stands. -/
def c4Cex5 : Cfg2 :=
  ⟨⟨some (claimSpec (newMutex "a") emptyLease 0), 2⟩, 0,
   ⟨.ret .cancelled, true, true⟩, procStart⟩

/-- Counterexample to C4 as stated.  A reachable run in which `lock`
returns the context's cancellation error even though its claiming
update was applied: "a" creates, fetches and successfully claims the
lease (`break`), the context is cancelled before the final
`ctx.Err()` check (mutex.go line 185), and `lock` then returns
`ctx.Err()` while the store holds "a"'s claim. -/
theorem c4_counterexample :
    Reach2 (newMutex "a") (newMutex "b") (init2 0) c4Cex5 ∧
    c4Cex5.pa.pc = PC.ret .cancelled ∧
    c4Cex5.pa.updated = true ∧
    c4Cex5.store.record = some (claimSpec (newMutex "a") emptyLease 0) ∧
    (init2 0).store.record = none := by
  have s1 : Step2 (newMutex "a") (newMutex "b") (init2 0) cfgCreateDone :=
    step2A_of_eq _ _ _ _ true (by decide)
  have s2 : Step2 (newMutex "a") (newMutex "b") cfgCreateDone cfgFetchDone :=
    step2A_of_eq _ _ _ _ true (by decide)
  have s3 : Step2 (newMutex "a") (newMutex "b") cfgFetchDone cfgClaimDone :=
    step2A_of_eq _ _ _ _ true (by decide)
  have s4 : Step2 (newMutex "a") (newMutex "b") cfgClaimDone c4Cex4 :=
    step2CancelA_of_eq _ _ _ _ (by decide)
  have s5 : Step2 (newMutex "a") (newMutex "b") c4Cex4 c4Cex5 :=
    step2A_of_eq _ _ _ _ true (by decide)
  exact ⟨Relation.ReflTransGen.tail
          (Relation.ReflTransGen.tail
            (Relation.ReflTransGen.tail
              (Relation.ReflTransGen.tail
                (Relation.ReflTransGen.tail Relation.ReflTransGen.refl s1)
                s2) s3) s4) s5,
         rfl, rfl, rfl, rfl⟩

/-- Characterization of a successful claim: if a step from a fetched
record sets the claiming-update flag, then the store received exactly
`claimSpec` of the fetched record at version `ver + 1`, the call broke
out of the loop, the conditional update matched the store's version,
and - when the record had a holder - its TTL fields were present and
its expiration time was not in the future. -/
theorem lockStep_claim_success (m : MutexCfg) (ok : Bool) (p : Proc)
    (s : Store) (now : Int) (l : LeaseSpec) (v : Nat)
    (hpc : p.pc = PC.fetched l v) (hpu : p.updated = false)
    (hsucc : (lockStep m ok p s now).1.updated = true) :
    (lockStep m ok p s now).2 = ⟨some (claimSpec m l now), s.ver + 1⟩ ∧
      (lockStep m ok p s now).1.pc = PC.postLoop ∧
      ok = true ∧ v = s.ver ∧
      (l.holderIdentity ≠ none →
        l.leaseDurationSeconds ≠ none ∧ l.acquireTime ≠ none ∧
          expiresAt l ≤ now) := by
  rw [lockStep_eq, hpc] at hsucc ⊢
  simp only [lockStepAux] at hsucc ⊢
  unfold stepFetched at hsucc ⊢
  split at hsucc
  · next hh =>
    rw [if_pos hh]
    split at hsucc
    · simp [hpu] at hsucc
    · next hfields =>
      rw [if_neg hfields]
      split at hsucc
      · simp [hpu] at hsucc
      · next hnot =>
        rw [if_neg hnot]
        unfold tryClaim at hsucc ⊢
        split at hsucc
        · next hand =>
          rw [if_pos hand]
          push_neg at hfields
          exact ⟨rfl, rfl, hand.1, hand.2,
            fun _ => ⟨hfields.1, hfields.2, le_of_not_lt hnot⟩⟩
        · simp [hpu] at hsucc
  · next hh =>
    rw [if_neg hh]
    unfold tryClaim at hsucc ⊢
    split at hsucc
    · next hand =>
      rw [if_pos hand]
      exact ⟨rfl, rfl, hand.1, hand.2,
        fun hcon => absurd (not_not.mp hh) hcon⟩
    · simp [hpu] at hsucc

/-- C2 (amended).  When a `lock` call's claiming update succeeds, the
written record is exactly `claimSpec` of the fetched record:
`holderIdentity` is this mutex's identity, `leaseTransitions` is the
fetched counter (defaulted to 0) plus 1 reduced into the `int32`
range (for fetched values below 2^31 - 1 this is exactly the fetched
value plus one; at 2^31 - 1 it wraps, see `c2_counterexample`),
`acquireTime` is the current time, and `leaseDurationSeconds` is the
configured TTL rounded to the nearest whole second (10 for the fixed
10-second TTL that `NewMutex` configures). -/
theorem c2_claim_write (m : MutexCfg) (ok : Bool) (p : Proc) (s : Store)
    (now : Int) (l : LeaseSpec) (v : Nat)
    (hpc : p.pc = PC.fetched l v) (hpu : p.updated = false)
    (hsucc : (lockStep m ok p s now).1.updated = true) :
    (lockStep m ok p s now).2.record = some (claimSpec m l now) ∧
      (claimSpec m l now).holderIdentity = some m.uniqueID ∧
      (claimSpec m l now).leaseTransitions =
        some (wrap32 (l.leaseTransitions.getD 0 + 1)) ∧
      (claimSpec m l now).acquireTime = some now ∧
      (claimSpec m l now).leaseDurationSeconds =
        some (wrap32 (roundSecondsNS m.expirationNS)) ∧
      (m.expirationNS = (newMutex m.uniqueID).expirationNS →
        (claimSpec m l now).leaseDurationSeconds = some 10) := by
  obtain ⟨h2, _, _, _, _⟩ :=
    lockStep_claim_success m ok p s now l v hpc hpu hsucc
  refine ⟨by rw [h2], rfl, rfl, rfl, rfl, fun hexp => ?_⟩
  simp only [claimSpec, newMutex] at hexp ⊢
  rw [hexp]
  decide

/-- A fetched record, unlocked but with the transition counter at the
`int32` maximum. -/
def c2CexLease : LeaseSpec :=
  { holderIdentity := none
    acquireTime := none
    renewTime := none
    leaseDurationSeconds := none
    leaseTransitions := some 2147483647 }

/-- Counterexample to C2 as stated: claiming a record whose fetched
`leaseTransitions` is 2147483647 (the `int32` maximum) writes
-2147483648 - Go's `leaseTransitions++` wraps - not the fetched value
plus 1. -/
theorem c2_counterexample :
    (lockStep (newMutex "a") true ⟨.fetched c2CexLease 3, false, false⟩
        ⟨some c2CexLease, 3⟩ 7).1.updated = true ∧
    (lockStep (newMutex "a") true ⟨.fetched c2CexLease 3, false, false⟩
        ⟨some c2CexLease, 3⟩ 7).2.record =
      some (claimSpec (newMutex "a") c2CexLease 7) ∧
    (claimSpec (newMutex "a") c2CexLease 7).leaseTransitions =
      some (-2147483648) ∧
    some (-2147483648 : Int) ≠ some (2147483647 + 1 : Int) := by
  refine ⟨by decide, by decide, by decide, by decide⟩

/-- C3 (amended).  For a fetched record with a holder and both TTL
fields present, `lock` treats it as still held - sleeping and
retrying without touching the store - exactly when
(`renewTime` ?? `acquireTime`) + `leaseDurationSeconds` is strictly in
the future; when that expiration time is not in the future the record
is claimable even though `holderIdentity` is still a prior owner, and
a successful reclaim increments `leaseTransitions` by exactly 1 in
`int32` arithmetic (wrapping at the `int32` maximum, see
`c3_counterexample`). -/
theorem c3_expiration_iff (m : MutexCfg) (p : Proc) (s : Store)
    (now : Int) (l : LeaseSpec) (v : Nat) (h : String) (d t : Int)
    (hpc : p.pc = PC.fetched l v) (hh : l.holderIdentity = some h)
    (hd : l.leaseDurationSeconds = some d) (ht : l.acquireTime = some t) :
    (now < expiresAt l →
      ∀ ok, lockStep m ok p s now = ({ p with pc := .sleepRetry }, s)) ∧
    (expiresAt l ≤ now → v = s.ver →
      (lockStep m true p s now).2 = ⟨some (claimSpec m l now), s.ver + 1⟩ ∧
      (lockStep m true p s now).1.pc = PC.postLoop ∧
      (claimSpec m l now).leaseTransitions =
        some (wrap32 (l.leaseTransitions.getD 0 + 1)) ∧
      (claimSpec m l now).holderIdentity = some m.uniqueID) := by
  have hhne : l.holderIdentity ≠ none := by rw [hh]; simp
  have hfields : ¬(l.leaseDurationSeconds = none ∨ l.acquireTime = none) := by
    simp [hd, ht]
  constructor
  · intro hexp ok
    rw [lockStep_eq, hpc]
    simp only [lockStepAux]
    unfold stepFetched
    rw [if_pos hhne, if_neg hfields, if_pos hexp]
  · intro hexp hv
    rw [lockStep_eq, hpc]
    simp only [lockStepAux]
    unfold stepFetched tryClaim
    rw [if_pos hhne, if_neg hfields, if_neg (not_lt.mpr hexp),
      if_pos ⟨rfl, hv⟩]
    exact ⟨rfl, rfl, rfl, rfl⟩

/-- An expired held record whose transition counter sits at the
`int32` maximum (expiration 0 + 1 s = 1 s, checked at 2 s). -/
def c3CexLease : LeaseSpec :=
  { holderIdentity := some "old"
    acquireTime := some 0
    renewTime := none
    leaseDurationSeconds := some 1
    leaseTransitions := some 2147483647 }

/-- Counterexample to C3 as stated: reclaiming an expired record whose
`holderIdentity` is still the prior owner succeeds, but with the
fetched counter at 2147483647 the written `leaseTransitions` is
-2147483648, not the fetched value plus 1. -/
theorem c3_counterexample :
    expiresAt c3CexLease ≤ 2000000000 ∧
    c3CexLease.holderIdentity = some "old" ∧
    (lockStep (newMutex "a") true ⟨.fetched c3CexLease 1, false, false⟩
        ⟨some c3CexLease, 1⟩ 2000000000).1.pc = PC.postLoop ∧
    (lockStep (newMutex "a") true ⟨.fetched c3CexLease 1, false, false⟩
        ⟨some c3CexLease, 1⟩ 2000000000).2.record =
      some (claimSpec (newMutex "a") c3CexLease 2000000000) ∧
    (claimSpec (newMutex "a") c3CexLease 2000000000).leaseTransitions =
      some (-2147483648) ∧
    some (-2147483648 : Int) ≠ some (2147483647 + 1 : Int) := by
  refine ⟨by decide, by decide, by decide, by decide, by decide, by decide⟩

/-- Witness for C2 at a concrete successful claim: "a" claims the
freshly created empty record at time 0; the written record has holder
"a", transitions 1, acquire time 0 and a 10-second TTL. -/
theorem c2_claim_write_witness :
    (lockStep (newMutex "a") true ⟨.fetched emptyLease 1, false, false⟩
        ⟨some emptyLease, 1⟩ 0).2.record =
      some (claimSpec (newMutex "a") emptyLease 0) ∧
    (claimSpec (newMutex "a") emptyLease 0).leaseTransitions = some 1 ∧
    (claimSpec (newMutex "a") emptyLease 0).acquireTime = some 0 ∧
    (claimSpec (newMutex "a") emptyLease 0).leaseDurationSeconds = some 10 := by
  have h := c2_claim_write (newMutex "a") true
    ⟨.fetched emptyLease 1, false, false⟩ ⟨some emptyLease, 1⟩ 0
    emptyLease 1 rfl rfl (by decide)
  exact ⟨h.1, by decide, h.2.2.2.1, h.2.2.2.2.2 rfl⟩

/-- Witness for C3 at concrete records: a held, unexpired record at
time 5 makes the call sleep and retry; the expired `c3CexLease` at
time 2 s is reclaimed. -/
theorem c3_expiration_iff_witness :
    lockStep (newMutex "a") true ⟨.fetched heldLease 1, false, false⟩
        ⟨some heldLease, 1⟩ 5 =
      (⟨.sleepRetry, false, false⟩, ⟨some heldLease, 1⟩) ∧
    (lockStep (newMutex "a") true ⟨.fetched c3CexLease 1, false, false⟩
        ⟨some c3CexLease, 1⟩ 2000000000).1.pc = PC.postLoop := by
  have h1 := (c3_expiration_iff (newMutex "a")
    ⟨.fetched heldLease 1, false, false⟩ ⟨some heldLease, 1⟩ 5
    heldLease 1 "other" 1000000 0 rfl rfl rfl rfl).1 (by decide) true
  have h2 := (c3_expiration_iff (newMutex "a")
    ⟨.fetched c3CexLease 1, false, false⟩ ⟨some c3CexLease, 1⟩ 2000000000
    c3CexLease 1 "old" 1 0 rfl rfl rfl rfl).2 (by decide) rfl
  exact ⟨h1, h2.2.1⟩

/-- C5 (amended).  `lock`'s claiming update never writes `renewTime`:
the written record carries the fetched record's `renewTime` over
verbatim.  Hence after locking a record whose `renewTime` was absent
(a fresh record, or one released by `Unlock`, which clears
`renewTime`) the field is absent until the first `Extend`; but a
takeover of an expired record keeps the prior holder's `renewTime`
(see `c5_counterexample`). -/
theorem c5_renew_time (m : MutexCfg) (ok : Bool) (p : Proc) (s : Store)
    (now : Int) (l : LeaseSpec) (v : Nat) (id : String)
    (hpc : p.pc = PC.fetched l v) (hpu : p.updated = false)
    (hsucc : (lockStep m ok p s now).1.updated = true) :
    ((lockStep m ok p s now).2.record = some (claimSpec m l now) ∧
      (claimSpec m l now).renewTime = l.renewTime ∧
      (l.renewTime = none → (claimSpec m l now).renewTime = none)) ∧
    (∀ lu : LeaseSpec, lu.holderIdentity = some id →
      (unlock id false false (some lu)).2 =
        some ⟨none, none, none, none, lu.leaseTransitions⟩) := by
  obtain ⟨h2, _, _, _, _⟩ :=
    lockStep_claim_success m ok p s now l v hpc hpu hsucc
  refine ⟨⟨by rw [h2], rfl, fun h => h⟩, fun lu hlu => ?_⟩
  simp [unlock, hlu]

/-- Witness for C5 at a concrete successful claim: locking the fresh
empty record (no `renewTime`) leaves `renewTime` absent, and an
`Unlock` of the claimed record clears `renewTime`. -/
theorem c5_renew_time_witness :
    (claimSpec (newMutex "a") emptyLease 0).renewTime = none ∧
    (unlock "a" false false
        (some (claimSpec (newMutex "a") emptyLease 0))).2 =
      some ⟨none, none, none, none, some 1⟩ := by
  have h := c5_renew_time (newMutex "a") true
    ⟨.fetched emptyLease 1, false, false⟩ ⟨some emptyLease, 1⟩ 0
    emptyLease 1 "a" rfl rfl (by decide)
  refine ⟨h.1.2.2 rfl, ?_⟩
  rw [h.2 (claimSpec (newMutex "a") emptyLease 0) (by decide)]
  decide

/-- An expired record taken over after the prior holder extended it:
`renewTime` is present (0.9 s) and the lease expired at 1.9 s. -/
def c5CexLease : LeaseSpec :=
  { holderIdentity := some "old"
    acquireTime := some 0
    renewTime := some 900000000
    leaseDurationSeconds := some 1
    leaseTransitions := some 3 }

/-- Counterexample to C5 as stated: a successful `Lock` takeover of an
expired record whose prior holder had extended it leaves the prior
`renewTime` (0.9 s) in the record - `renewTime` is not absent
immediately after this successful `Lock`. -/
theorem c5_counterexample :
    expiresAt c5CexLease ≤ 2000000000 ∧
    (lockStep (newMutex "a") true ⟨.fetched c5CexLease 1, false, false⟩
        ⟨some c5CexLease, 1⟩ 2000000000).1.updated = true ∧
    (lockStep (newMutex "a") true ⟨.fetched c5CexLease 1, false, false⟩
        ⟨some c5CexLease, 1⟩ 2000000000).2.record =
      some (claimSpec (newMutex "a") c5CexLease 2000000000) ∧
    (claimSpec (newMutex "a") c5CexLease 2000000000).holderIdentity =
      some "a" ∧
    (claimSpec (newMutex "a") c5CexLease 2000000000).renewTime =
      some 900000000 ∧
    ¬(claimSpec (newMutex "a") c5CexLease 2000000000).renewTime = none := by
  refine ⟨by decide, by decide, by decide, by decide, by decide, by decide⟩

/-- C7.  `lock`'s error classification: a failing bootstrap `Create`
is returned immediately; `Create` against an existing record proceeds
into the loop (the "already exists" outcome is success); a failing
in-loop `Get` is returned immediately; a fetched record with a holder
but a missing TTL field is an immediate fatal error; and a returned
error is terminal (never retried). -/
theorem c7_lock_error_paths (m : MutexCfg) :
    (∀ (p : Proc) (s : Store) (now : Int), p.pc = PC.start →
      (lockStep m false p s now).1.pc = PC.ret .createErr ∧
      (lockStep m false p s now).2 = s) ∧
    (∀ (p : Proc) (s : Store) (now : Int) (l : LeaseSpec),
      p.pc = PC.start → s.record = some l →
      lockStep m true p s now = ({ p with pc := .loopHead }, s)) ∧
    (∀ (p : Proc) (s : Store) (now : Int), p.pc = PC.loopHead →
      p.cancelled = false →
      (lockStep m false p s now).1.pc = PC.ret .getErr ∧
      (lockStep m false p s now).2 = s) ∧
    (∀ (ok : Bool) (p : Proc) (s : Store) (now : Int) (l : LeaseSpec)
        (v : Nat),
      p.pc = PC.fetched l v → l.holderIdentity ≠ none →
      l.leaseDurationSeconds = none ∨ l.acquireTime = none →
      (lockStep m ok p s now).1.pc = PC.ret .malformed ∧
      (lockStep m ok p s now).2 = s) ∧
    (∀ (ok : Bool) (p : Proc) (s : Store) (now : Int) (e : LockErr),
      p.pc = PC.ret e → lockStep m ok p s now = (p, s)) := by
  refine ⟨?_, ?_, ?_, ?_, ?_⟩
  · intro p s now hpc
    rw [lockStep_eq, hpc]
    simp [lockStepAux]
  · intro p s now l hpc hs
    rw [lockStep_start_some m true p s now l hpc hs]
    simp
  · intro p s now hpc hc
    rw [lockStep_eq, hpc]
    simp only [lockStepAux]
    rw [if_neg (by simp [hc])]
    simp
  · intro ok p s now l v hpc hh hfields
    rw [lockStep_eq, hpc]
    simp only [lockStepAux]
    unfold stepFetched
    rw [if_pos hh, if_pos hfields]
    exact ⟨rfl, rfl⟩
  · intro ok p s now e hpc
    exact lockStep_ret_pc m ok p s now e hpc

/-- A record claiming a holder but missing `acquireTime` - the
malformed shape `lock` refuses to reason about. -/
def malformedLease : LeaseSpec :=
  { holderIdentity := some "x"
    acquireTime := none
    renewTime := none
    leaseDurationSeconds := some 5
    leaseTransitions := none }

/-- Witness for C7 at concrete inputs: a failed create returns the
create error; create over an existing record proceeds to the loop; a
failed in-loop get returns the get error; a held record missing
`acquireTime` returns the malformed-record error. -/
theorem c7_lock_error_paths_witness :
    (lockStep (newMutex "a") false procStart ⟨none, 0⟩ 0).1.pc =
      PC.ret .createErr ∧
    lockStep (newMutex "a") true procStart ⟨some emptyLease, 1⟩ 0 =
      (⟨.loopHead, false, false⟩, ⟨some emptyLease, 1⟩) ∧
    (lockStep (newMutex "a") false ⟨.loopHead, false, false⟩
        ⟨some emptyLease, 1⟩ 0).1.pc = PC.ret .getErr ∧
    (lockStep (newMutex "a") true ⟨.fetched malformedLease 1, false, false⟩
        ⟨some malformedLease, 1⟩ 0).1.pc = PC.ret .malformed := by
  have h := c7_lock_error_paths (newMutex "a")
  exact ⟨(h.1 procStart ⟨none, 0⟩ 0 rfl).1,
         h.2.1 procStart ⟨some emptyLease, 1⟩ 0 emptyLease rfl rfl,
         (h.2.2.1 ⟨.loopHead, false, false⟩ ⟨some emptyLease, 1⟩ 0 rfl rfl).1,
         (h.2.2.2.1 true ⟨.fetched malformedLease 1, false, false⟩
           ⟨some malformedLease, 1⟩ 0 malformedLease 1 rfl (by decide)
           (by decide)).1⟩

/-- C6.  Error classification of `Extend` and `Unlock`: both return
`ErrNotLocked` exactly when the record is absent, unreadable (the
fetch fails), or has no `holderIdentity`, and `ErrLockedByAnother`
exactly when the holder differs from the caller's identity; in all of
these failure cases the remote record is unchanged by the call. -/
theorem c6_error_classification (id : String) (gFail uFail : Bool)
    (s : Option LeaseSpec) (now : Int) :
    ((extend id gFail uFail s now).1 = some .notLocked ↔
      gFail = true ∨ s = none ∨
        ∃ l, s = some l ∧ l.holderIdentity = none) ∧
    ((extend id gFail uFail s now).1 = some .lockedByAnother ↔
      gFail = false ∧
        ∃ l h, s = some l ∧ l.holderIdentity = some h ∧ h ≠ id) ∧
    ((extend id gFail uFail s now).1 = some .notLocked ∨
        (extend id gFail uFail s now).1 = some .lockedByAnother →
      (extend id gFail uFail s now).2 = s) ∧
    ((unlock id gFail uFail s).1 = some .notLocked ↔
      gFail = true ∨ s = none ∨
        ∃ l, s = some l ∧ l.holderIdentity = none) ∧
    ((unlock id gFail uFail s).1 = some .lockedByAnother ↔
      gFail = false ∧
        ∃ l h, s = some l ∧ l.holderIdentity = some h ∧ h ≠ id) ∧
    ((unlock id gFail uFail s).1 = some .notLocked ∨
        (unlock id gFail uFail s).1 = some .lockedByAnother →
      (unlock id gFail uFail s).2 = s) := by
  unfold extend unlock
  cases gFail
  · cases s with
    | none => simp
    | some l =>
      cases hh : l.holderIdentity with
      | none => simp [hh]
      | some h =>
        by_cases hid : h = id
        · subst hid
          cases uFail <;> simp [hh]
        · simp [hh, hid]
  · simp

/-- Witness for C6 at concrete inputs: `Extend`/`Unlock` against an
absent record report `ErrNotLocked`; against a record held by "other"
the caller "a" gets `ErrLockedByAnother` and the record is unchanged. -/
theorem c6_error_classification_witness :
    (extend "a" false false none 3).1 = some .notLocked ∧
    (unlock "a" false false none).1 = some .notLocked ∧
    (extend "a" false false (some heldLease) 3).1 =
      some .lockedByAnother ∧
    (unlock "a" false false (some heldLease)).1 =
      some .lockedByAnother ∧
    (extend "a" false false (some heldLease) 3).2 = some heldLease ∧
    (unlock "a" false false (some heldLease)).2 = some heldLease := by
  have h1 := c6_error_classification "a" false false none 3
  have h2 := c6_error_classification "a" false false (some heldLease) 3
  refine ⟨h1.1.mpr (Or.inr (Or.inl rfl)),
          (h1.2.2.2.1).mpr (Or.inr (Or.inl rfl)),
          h2.2.1.mpr ⟨rfl, heldLease, "other", rfl, rfl, by decide⟩,
          (h2.2.2.2.2.1).mpr ⟨rfl, heldLease, "other", rfl, rfl, by decide⟩,
          h2.2.2.1 (Or.inr (h2.2.1.mpr
            ⟨rfl, heldLease, "other", rfl, rfl, by decide⟩)),
          h2.2.2.2.2.2 (Or.inr ((h2.2.2.2.2.1).mpr
            ⟨rfl, heldLease, "other", rfl, rfl, by decide⟩))⟩

/-- C8.  A successful `Extend` of a record written by `lock`'s claim
at time `t1`, performed at a strictly later time `t2`, sets
`renewTime` to `t2` and leaves `holderIdentity`, `acquireTime`,
`leaseDurationSeconds` and `leaseTransitions` untouched; the new
`renewTime` is strictly later than `acquireTime` and than any
`renewTime` the record carried before the extend. -/
theorem c8_extend_frame (m : MutexCfg) (l0 : LeaseSpec) (t1 t2 : Int)
    (hlt : t1 < t2) (hprior : ∀ r, l0.renewTime = some r → r < t2) :
    ∃ l', extend m.uniqueID false false (some (claimSpec m l0 t1)) t2 =
        (none, some l') ∧
      l'.renewTime = some t2 ∧
      l'.holderIdentity = (claimSpec m l0 t1).holderIdentity ∧
      l'.acquireTime = some t1 ∧
      l'.leaseDurationSeconds = (claimSpec m l0 t1).leaseDurationSeconds ∧
      l'.leaseTransitions = (claimSpec m l0 t1).leaseTransitions ∧
      (∀ ta, (claimSpec m l0 t1).acquireTime = some ta → ta < t2) ∧
      (∀ r, (claimSpec m l0 t1).renewTime = some r → r < t2) := by
  refine ⟨{ claimSpec m l0 t1 with renewTime := some t2 },
    ?_, rfl, rfl, rfl, rfl, rfl, ?_, ?_⟩
  · simp [extend, claimSpec]
  · intro ta hta
    have : t1 = ta := Option.some_injective _ hta
    rw [← this]
    exact hlt
  · intro r hr
    exact hprior r hr

/-- Witness for C8: lock the fresh record at time 0, extend 50 ms
later; `renewTime` becomes 50 ms, `acquireTime` stays 0. -/
theorem c8_extend_frame_witness :
    (extend (newMutex "a").uniqueID false false
        (some (claimSpec (newMutex "a") emptyLease 0)) 50000000).1 = none ∧
    ∃ l', (extend (newMutex "a").uniqueID false false
          (some (claimSpec (newMutex "a") emptyLease 0)) 50000000).2 =
        some l' ∧
      l'.renewTime = some 50000000 ∧ l'.acquireTime = some 0 := by
  obtain ⟨l', h1, h2, _, h4, _⟩ :=
    c8_extend_frame (newMutex "a") emptyLease 0 50000000 (by decide)
      (by intro r hr; simp [emptyLease] at hr)
  exact ⟨by rw [h1], l', by rw [h1], h2, h4⟩

/-- C9.  `Unlock` by the current holder clears exactly
`holderIdentity`, `acquireTime`, `renewTime` and
`leaseDurationSeconds` and leaves `leaseTransitions` unchanged; a
record held by a different identity is never cleared - the call fails
with `ErrLockedByAnother` (or `ErrNotLocked` when the fetch fails) and
the record is unchanged. -/
theorem c9_unlock_frame (id : String) (l : LeaseSpec) (h : String)
    (hh : l.holderIdentity = some h) :
    (h = id → unlock id false false (some l) =
      (none, some ⟨none, none, none, none, l.leaseTransitions⟩)) ∧
    (h ≠ id → ∀ gF uF,
      (unlock id gF uF (some l)).2 = some l ∧
      (gF = false → (unlock id gF uF (some l)).1 =
        some .lockedByAnother)) := by
  constructor
  · intro hid
    subst hid
    simp [unlock, hh]
  · intro hid gF uF
    cases gF
    · simp [unlock, hh, hid]
    · simp [unlock]

/-- Witness for C9: unlocking our own freshly claimed record clears
the four ownership fields and keeps the transition counter at 1;
unlocking a record held by "other" fails with `ErrLockedByAnother`
and leaves it unchanged. -/
theorem c9_unlock_frame_witness :
    unlock "a" false false (some (claimSpec (newMutex "a") emptyLease 0)) =
      (none, some ⟨none, none, none, none, some 1⟩) ∧
    (unlock "a" false false (some heldLease)).2 = some heldLease ∧
    (unlock "a" false false (some heldLease)).1 =
      some .lockedByAnother := by
  have h1 := (c9_unlock_frame "a" (claimSpec (newMutex "a") emptyLease 0)
    "a" rfl).1 rfl
  have h2 := (c9_unlock_frame "a" heldLease "other" rfl).2 (by decide)
    false false
  exact ⟨by rw [h1]; decide, h2.1, h2.2 rfl⟩

/-- C10.  `Extend` performs no expiration check: whenever the record's
holder equals this mutex's identity and the store round trips succeed,
the extend succeeds and sets `renewTime` to now, even when the
record's computed expiration time is already in the past. -/
theorem c10_extend_no_expiry_check (m : MutexCfg) (l : LeaseSpec)
    (now : Int) (hh : l.holderIdentity = some m.uniqueID)
    (_hexp : expiresAt l ≤ now) :
    extend m.uniqueID false false (some l) now =
      (none, some { l with renewTime := some now }) := by
  simp [extend, hh]

/-- A record held by "a" whose lease expired at 1 s. -/
def c10Lease : LeaseSpec :=
  { holderIdentity := some "a"
    acquireTime := some 0
    renewTime := none
    leaseDurationSeconds := some 1
    leaseTransitions := some 1 }

/-- Witness for C10: extending a lease that expired at 1 s at time 5 s
still succeeds and stamps `renewTime` with 5 s. -/
theorem c10_extend_no_expiry_check_witness :
    expiresAt c10Lease ≤ 5000000000 ∧
    extend "a" false false (some c10Lease) 5000000000 =
      (none, some { c10Lease with renewTime := some 5000000000 }) := by
  exact ⟨by decide,
    c10_extend_no_expiry_check (newMutex "a") c10Lease 5000000000 rfl
      (by decide)⟩

end Kubesync
